import Mathlib

/-!
# Verification of the product-hunt-server backend

Shallow embedding of the route handlers of `src/index.js` (an Express +
MongoDB backend).  Collections are embedded as Lean lists of documents;
MongoDB's `findOne`/`updateOne`/`deleteOne` act on the first document (in
natural = insertion order) matching the filter, which the embedding renders
as recursion over the list.  HTTP outcomes are rendered as inductive result
types carrying the status codes of the source.
-/

namespace ProductHunt

/-- Embeds `isValidObjectId` from `src/index.js` line 490:
`ObjectId.isValid(id) && String(new ObjectId(id)) === id`.
A string passes exactly when it is a 24-character lowercase hexadecimal
string: `ObjectId.isValid` accepts 24-char hex strings (case-insensitively)
and 12-char byte strings, and `String(new ObjectId(id))` renders the id as
24 lowercase hex characters, so the round-trip equality holds exactly for
24 lowercase hex characters. -/
def isHexLowerDigit (c : Char) : Bool :=
  c.isDigit || (('a' ≤ c) && (c ≤ 'f'))

def isValidObjectId (s : String) : Bool :=
  (s.length == 24) && s.toList.all isHexLowerDigit

/-- A product document, projected to the fields the verified routes touch.
`pid` embeds the Mongo `_id` (rendered as its hex string).  The fields
`productName`/`ownerEmail`/`votes`/`votedBy`/`status` come from the
`productData` object built by `POST /products` (src/index.js 551-563) and
the `$set { status }` of `PATCH /products/approve/:id`.
The fields `reportCount`/`reportedBy` are modelled from the spec (§3, §4.2):
the report-recording route is absent from `src/`, and the spec states the
report counter and reported-by set are denormalized onto the Product. -/
structure Product where
  pid : String
  ownerEmail : String
  votes : Int
  votedBy : List String
  status : Option String
  reportCount : Nat
  reportedBy : List String
  deriving Repr, DecidableEq

/-- Embeds MongoDB `findOne({_id: id})` on the products collection: the first
document (in insertion order) whose `_id` matches, if any. -/
def findOneById (store : List Product) (id : String) : Option Product :=
  match store with
  | [] => none
  | p :: rest => if p.pid == id then some p else findOneById rest id

/-- Embeds MongoDB `updateOne({_id: id}, ...)` on the products collection:
the first document whose `_id` matches is replaced by its updated form;
all other documents are untouched. -/
def updateOneById (store : List Product) (id : String) (f : Product → Product) :
    List Product :=
  match store with
  | [] => []
  | p :: rest =>
    if p.pid == id then f p :: rest else p :: updateOneById rest id f

/-- The `$inc: {votes: delta}, $push: {votedBy: userEmail}` update document of
`PATCH /products/:id/vote` (src/index.js 599 and 601). -/
def applyVoteUpdate (delta : Int) (userEmail : String) (p : Product) : Product :=
  { p with votes := p.votes + delta, votedBy := p.votedBy ++ [userEmail] }

/-- Outcome of `PATCH /products/:id/vote`.  `invalidId`, `alreadyVoted` and
`invalidType` are HTTP 400, `notFound` is 404, `ok` is the 200 response
carrying `updatedProduct.votes` (re-read from the store after the update;
`none` would correspond to the re-read failing). -/
inductive VoteResult where
  | invalidId : VoteResult
  | notFound : VoteResult
  | alreadyVoted : VoteResult
  | invalidType : VoteResult
  | ok : Option Int → VoteResult
  deriving Repr, DecidableEq

/-- Embeds `PATCH /products/:id/vote` (src/index.js 582-613):
validate the id, find the product, reject a duplicate voter identity with
400 before any write, then apply the `up` (+1) or `down` (-1) atomic
increment-and-push, and re-read the document for the response payload. -/
def voteHandler (store : List Product) (id voteType userEmail : String) :
    List Product × VoteResult :=
  if !isValidObjectId id then (store, .invalidId)
  else
    match findOneById store id with
    | none => (store, .notFound)
    | some product =>
      if product.votedBy.contains userEmail then (store, .alreadyVoted)
      else if voteType == "up" then
        let s := updateOneById store id (applyVoteUpdate 1 userEmail)
        (s, .ok ((findOneById s id).map Product.votes))
      else if voteType == "down" then
        let s := updateOneById store id (applyVoteUpdate (-1) userEmail)
        (s, .ok ((findOneById s id).map Product.votes))
      else (store, .invalidType)

/-- A concrete one-product store used to settle C1 on explicit inputs. -/
def voteCexId : String := "0123456789abcdef01234567"

def voteCexStore : List Product :=
  [{ pid := voteCexId, ownerEmail := "owner@example.com", votes := 0,
     votedBy := [], status := none, reportCount := 0, reportedBy := [] }]

/-- An audit record in the reports log.  Modelled from the spec (§3 Report):
"product reference, reporter identity, reason, timestamp". -/
structure Report where
  productRef : String
  reporter : String
  reason : String
  timestamp : Nat
  deriving Repr, DecidableEq

inductive ReportResult where
  | notFound : ReportResult
  | conflict : ReportResult
  | ok : ReportResult
  deriving Repr, DecidableEq

/-- Modelled from the spec: the report-recording update of §4.2 — "atomically
increment report counter, append reporter identity".  No report-recording
route exists under `src/` (the only report route, `GET /reported-products`
at src/index.js 417-420, merely reads via an undefined `Product` model). -/
def applyReportUpdate (who : String) (p : Product) : Product :=
  { p with reportCount := p.reportCount + 1, reportedBy := p.reportedBy ++ [who] }

/-- Modelled from the spec: report recording, §4.2 — "Same shape as 4.1:
check reporter identity not already in the reported-by set, then atomically
increment report counter, append reporter identity, and insert a separate
audit record into a reports log.  Idempotency key is (product id, reporter
identity)."  Like §4.1, a missing product is NotFound and a duplicate
identity is Conflict. -/
def reportOp (prods : List Product) (log : List Report)
    (id who why : String) (now : Nat) :
    List Product × List Report × ReportResult :=
  match findOneById prods id with
  | none => (prods, log, .notFound)
  | some p =>
    if p.reportedBy.contains who then (prods, log, .conflict)
    else (updateOneById prods id (applyReportUpdate who),
          log ++ [⟨id, who, why, now⟩], .ok)

/-- Number of audit records in the reports log carrying a given idempotency
key (product id, reporter identity). -/
def reportKeyCount (log : List Report) (id who : String) : Nat :=
  log.countP (fun r => r.productRef == id && r.reporter == who)

/-- A membership document, projected to the fields `POST /products` reads:
`findOne({ userEmail: ownerEmail })` and `.isActive`. -/
structure Membership where
  userEmail : String
  isActive : Bool
  deriving Repr, DecidableEq

inductive SubmitResult where
  | forbidden : SubmitResult
  | created : SubmitResult
  deriving Repr, DecidableEq

/-- Embeds `membershipsCollection.findOne({ userEmail: ownerEmail })`
(src/index.js 544): the first membership document stored for the email. -/
def findMembership (mems : List Membership) (e : String) : Option Membership :=
  match mems with
  | [] => none
  | m :: rest => if m.userEmail == e then some m else findMembership rest e

/-- The `productData` document inserted by `POST /products` (src/index.js
551-563), projected onto the `Product` fields: a fresh product starts with
`votes: 0` and `votedBy: []` and no status. -/
def newProductDoc (pid ownerEmail : String) : Product :=
  { pid := pid, ownerEmail := ownerEmail, votes := 0, votedBy := [],
    status := none, reportCount := 0, reportedBy := [] }

/-- Embeds `POST /products` (src/index.js 541-566): the membership gate
`(!membership || !membership.isActive) && userProducts.length >= 1`
rejects with 403 before inserting; otherwise `productData` is inserted.
The memberships collection is returned unchanged in both branches, exactly
as in the source (which never writes to it). -/
def postProduct (mems : List Membership) (prods : List Product)
    (pid ownerEmail : String) :
    List Membership × List Product × SubmitResult :=
  let gate : Bool :=
    (match findMembership mems ownerEmail with
     | none => true
     | some m => !m.isActive) &&
    decide (1 ≤ (prods.filter (fun p => p.ownerEmail == ownerEmail)).length)
  if gate then (mems, prods, .forbidden)
  else (mems, prods ++ [newProductDoc pid ownerEmail], .created)

inductive DeleteResult where
  | invalidId : DeleteResult
  | notFound : DeleteResult
  | deleted : DeleteResult
  deriving Repr, DecidableEq

/-- Embeds MongoDB `deleteOne({_id: id})`: removes the first matching
document; removes nothing when no document matches. -/
def deleteOneById (store : List Product) (id : String) : List Product :=
  match store with
  | [] => []
  | p :: rest => if p.pid == id then rest else p :: deleteOneById rest id

/-- Embeds `DELETE /products/:id` (src/index.js 648-656): validate the id
format (400), run `deleteOne`, and answer 404 when `deletedCount === 0`
(that is, when no document matched). -/
def deleteProduct (store : List Product) (id : String) :
    List Product × DeleteResult :=
  if !isValidObjectId id then (store, .invalidId)
  else
    match findOneById store id with
    | none => (store, .notFound)
    | some _ => (deleteOneById store id, .deleted)

/-- The product-touching operations of the claims' lifecycle: submission
(`POST /products` insert), voting (`PATCH /products/:id/vote`), reporting
(spec-modelled, §4.2), approval (`PATCH /products/approve/:id`, a
`$set {status}`), deletion (`DELETE /products/:id`). -/
inductive Op where
  | submit : String → String → Op
  | vote : String → String → String → Op
  | report : String → String → String → Nat → Op
  | approve : String → String → Op
  | del : String → Op
  deriving Repr, DecidableEq

def applyOp (store : List Product) : Op → List Product
  | .submit pid owner => store ++ [newProductDoc pid owner]
  | .vote pid t u => (voteHandler store pid t u).1
  | .report pid who why now => (reportOp store [] pid who why now).1
  | .approve pid status =>
      updateOneById store pid (fun p => { p with status := some status })
  | .del pid => (deleteProduct store pid).1

def runOps (store : List Product) : List Op → List Product
  | [] => store
  | op :: rest => runOps (applyOp store op) rest

/-- Whether an operation is a `"down"`-typed vote request. -/
def isDownVote : Op → Bool
  | .vote _ t _ => t == "down"
  | _ => false

/-- Embeds `GET /products/rising` (src/index.js 616-623):
`productsCollection.find({ votes: { $gte: 10 } })`. -/
def risingProducts (store : List Product) : List Product :=
  store.filter (fun p => decide ((10 : Int) ≤ p.votes))

/-- A coupon document, exactly the four fields `POST /coupons` stores
(src/index.js 680). -/
structure Coupon where
  code : String
  expiryDate : String
  description : String
  discount : Int
  deriving Repr, DecidableEq

inductive CouponPostResult where
  | badRequest : CouponPostResult
  | created : CouponPostResult
  deriving Repr, DecidableEq

/-- Embeds `POST /coupons` (src/index.js 673-686).  The JavaScript guard
`!code || !expiryDate || !description || !discount` rejects falsy fields,
i.e. empty strings and the number 0; otherwise the four-field document is
inserted. -/
def postCoupon (store : List Coupon) (code expiryDate description : String)
    (discount : Int) : List Coupon × CouponPostResult :=
  if code == "" || expiryDate == "" || description == "" || discount == 0 then
    (store, .badRequest)
  else (store ++ [⟨code, expiryDate, description, discount⟩], .created)

/-- Embeds `GET /coupons/:code` (src/index.js 689-700):
`couponsCollection.findOne({ code })`, 404 when none matches. -/
def getCoupon (store : List Coupon) (code : String) : Option Coupon :=
  match store with
  | [] => none
  | c :: rest => if c.code == code then some c else getCoupon rest code

/-- A user document as `POST /signup` would store it. -/
structure User where
  email : String
  passwordHash : String
  deriving Repr, DecidableEq

/-- Outcome of `POST /signup` / `POST /register`.  `conflict` is the early
`res.status(400)` return; `created` is the `res.status(201)` success branch
as written in the source; `thrown` is an uncaught exception escaping the
handler (no response, no write). -/
inductive SignupResult where
  | conflict : Nat → SignupResult
  | created : Nat → String → SignupResult
  | thrown : String → SignupResult
  deriving Repr, DecidableEq

/-- Embeds `usersCollection.findOne({ email })` (src/index.js 500). -/
def findUserByEmail (users : List User) (email : String) : Option User :=
  match users with
  | [] => none
  | u :: rest => if u.email == email then some u else findUserByEmail rest email

/-- Embeds `POST /signup` (src/index.js 498-509).  When the email is taken
the handler returns 400 before any write.  Otherwise the source evaluates
`await bcrypt.hash(password, 10)`, but `bcrypt` is bound nowhere: the
module's imports (src/index.js 443-449) are express, cors, dotenv, multer,
jsonwebtoken and mongodb only.  Evaluating the unbound name throws a
`ReferenceError` before `insertOne` runs, so the embedding yields `thrown`
with the users collection untouched; the source's 201 branch (`created`)
is unreachable. -/
def signup (users : List User) (email password : String) :
    List User × SignupResult :=
  match findUserByEmail users email with
  | some _ => (users, .conflict 400)
  | none => (users, .thrown "ReferenceError: bcrypt is not defined")

/-- Embeds `POST /register` (src/index.js 511-521), textually identical to
`POST /signup`. -/
def register (users : List User) (email password : String) :
    List User × SignupResult :=
  match findUserByEmail users email with
  | some _ => (users, .conflict 400)
  | none => (users, .thrown "ReferenceError: bcrypt is not defined")

/-- A BSON-ish value, enough to render `productData` fields. -/
inductive BVal where
  | str : String → BVal
  | int : Int → BVal
  | strList : List String → BVal
  | time : Nat → BVal
  deriving Repr, DecidableEq

/-- A document as a list of (field name, value) pairs. -/
abbrev BDoc := List (String × BVal)

/-- The request data `POST /products` reads (src/index.js 542, 553-560):
body fields, the uploaded image (already base64-encoded), parsed tags, and
the `new Date()` timestamp. -/
structure ProductReq where
  productName : String
  productImageBase64 : String
  description : String
  tags : List String
  externalLinks : String
  ownerName : String
  ownerImage : String
  ownerEmail : String
  timestamp : Nat
  deriving Repr, DecidableEq

/-- The `productData` document inserted by `POST /products` (src/index.js
551-563), at the level of field names.  The owner identity is stored under
`ownerEmail`; no `userEmail` field is ever written. -/
def productData (r : ProductReq) : BDoc :=
  [("productName", .str r.productName),
   ("productImage", .str r.productImageBase64),
   ("description", .str r.description),
   ("tags", .strList r.tags),
   ("externalLinks", .str r.externalLinks),
   ("ownerName", .str r.ownerName),
   ("ownerImage", .str r.ownerImage),
   ("ownerEmail", .str r.ownerEmail),
   ("timestamp", .time r.timestamp),
   ("votes", .int 0),
   ("votedBy", .strList [])]

/-- Field lookup in a document. -/
def docLookup (d : BDoc) (k : String) : Option BVal :=
  match d with
  | [] => none
  | kv :: rest => if kv.1 == k then some kv.2 else docLookup rest k

/-- Embeds the Mongo equality filter `{k: v}` on a present value: a document
matches when its field `k` holds exactly `v`. -/
def matchesFieldEq (d : BDoc) (k : String) (v : BVal) : Bool :=
  docLookup d k == some v

/-- Embeds `GET /myproducts` (src/index.js 630-634):
`productsCollection.find({ userEmail: email })`. -/
def myproducts (store : List BDoc) (email : String) : List BDoc :=
  store.filter (fun d => matchesFieldEq d "userEmail" (BVal.str email))

/-- A concrete store for settling C2 on explicit inputs. -/
def reportDemoId : String := "abcdefabcdefabcdefabcdef"

def reportDemoStore : List Product :=
  [newProductDoc reportDemoId "owner@example.com"]

/-- A well-formed product id for the C4 lifecycle runs. -/
def c4Id : String := "aaaaaaaaaaaaaaaaaaaaaaaa"

/-- Concrete products for settling C5 on explicit inputs. -/
def risingHigh : Product :=
  { pid := "eeeeeeeeeeeeeeeeeeeeeeee", ownerEmail := "a@example.com",
    votes := 12, votedBy := [], status := none, reportCount := 0,
    reportedBy := [] }

def risingLow : Product :=
  { pid := "ffffffffffffffffffffffff", ownerEmail := "b@example.com",
    votes := 3, votedBy := [], status := none, reportCount := 0,
    reportedBy := [] }

def risingDemoStore : List Product := [risingHigh, risingLow]

/-- A concrete submission request for settling C10 on explicit inputs. -/
def myprodDemoReq : ProductReq :=
  { productName := "Demo", productImageBase64 := "aW1n", description := "d",
    tags := ["t"], externalLinks := "https://example.com", ownerName := "O",
    ownerImage := "img", ownerEmail := "o@example.com", timestamp := 0 }

def myprodDemoStore : List BDoc := [productData myprodDemoReq]

end ProductHunt

namespace ProductHunt

/-! ## Helper lemmas about `findOneById` and `updateOneById` -/

theorem findOneById_updateOneById (store : List Product) (id : String)
    (f : Product → Product) (p : Product)
    (hfind : findOneById store id = some p)
    (hpid : (f p).pid = p.pid) :
    findOneById (updateOneById store id f) id = some (f p) := by
  induction store with
  | nil => simp [findOneById] at hfind
  | cons a rest ih =>
    by_cases h : (a.pid == id) = true
    · simp only [findOneById, if_pos h] at hfind
      injection hfind with hap
      subst hap
      have h2 : ((f a).pid == id) = true := by
        rw [hpid]; exact h
      simp only [updateOneById, if_pos h, findOneById, if_pos h2]
    · simp only [findOneById, if_neg h] at hfind
      simp only [updateOneById, if_neg h, findOneById, if_neg h]
      exact ih hfind

theorem mem_updateOneById (store : List Product) (id : String)
    (f : Product → Product) (q : Product)
    (hq : q ∈ updateOneById store id f) :
    q ∈ store ∨ ∃ q₀ ∈ store, q = f q₀ := by
  induction store with
  | nil => simp [updateOneById] at hq
  | cons a rest ih =>
    simp only [updateOneById] at hq
    by_cases h : a.pid == id
    · rw [if_pos h] at hq
      rcases List.mem_cons.mp hq with h1 | h1
      · exact Or.inr ⟨a, List.mem_cons_self a rest, h1⟩
      · exact Or.inl (List.mem_cons_of_mem a h1)
    · rw [if_neg h] at hq
      rcases List.mem_cons.mp hq with h1 | h1
      · exact Or.inl (h1 ▸ List.mem_cons_self a rest)
      · rcases ih h1 with h2 | ⟨q₀, hq₀, hfq⟩
        · exact Or.inl (List.mem_cons_of_mem a h2)
        · exact Or.inr ⟨q₀, List.mem_cons_of_mem a hq₀, hfq⟩

/-! ## C1: voting twice with the same identity -/

/-- **C1** (amended).  For every store, well-formed product id, voter identity
and vote type (`"up"` or `"down"`): if the product is found and the identity
has not voted on it, the first request succeeds and changes the vote counter
by exactly the vote's delta (+1 for `"up"`, -1 for `"down"`), appends the
identity exactly once to the voter set, and the second identical request
fails with the 400 Conflict `alreadyVoted` response, leaving the store
unchanged.  (The original claim's "increasing by exactly one" holds only for
up-votes; a down-vote decreases the counter by one.) -/
theorem C1_vote_twice_same_identity (store : List Product) (id t u : String)
    (p : Product)
    (hvalid : isValidObjectId id = true)
    (ht : t = "up" ∨ t = "down")
    (hfind : findOneById store id = some p)
    (hnot : p.votedBy.contains u = false) :
    (voteHandler store id t u).2 =
      VoteResult.ok (some (p.votes + (if t = "up" then 1 else -1))) ∧
    findOneById (voteHandler store id t u).1 id =
      some { p with votes := p.votes + (if t = "up" then 1 else -1),
                    votedBy := p.votedBy ++ [u] } ∧
    (p.votedBy ++ [u]).count u = 1 ∧
    voteHandler (voteHandler store id t u).1 id t u =
      ((voteHandler store id t u).1, VoteResult.alreadyVoted) := by
  have hnotmem : u ∉ p.votedBy := by simpa using hnot
  have hcount : (p.votedBy ++ [u]).count u = 1 := by
    simp [List.count_append, List.count_eq_zero_of_not_mem hnotmem]
  rcases ht with ht | ht <;> subst ht
  · have hupd := findOneById_updateOneById store id (applyVoteUpdate 1 u) p hfind rfl
    have hrun : voteHandler store id "up" u =
        (updateOneById store id (applyVoteUpdate 1 u),
          VoteResult.ok (some (p.votes + 1))) := by
      simp [voteHandler, hvalid, hfind, hnotmem, hupd, applyVoteUpdate]
    have hmem2 : u ∈ (applyVoteUpdate 1 u p).votedBy := by
      simp [applyVoteUpdate]
    refine ⟨by rw [hrun]; simp, ?_, hcount, ?_⟩
    · rw [hrun]
      simpa [applyVoteUpdate] using hupd
    · rw [hrun]
      simp [voteHandler, hvalid, hupd, hmem2]
  · have hupd := findOneById_updateOneById store id (applyVoteUpdate (-1) u) p hfind rfl
    have hrun : voteHandler store id "down" u =
        (updateOneById store id (applyVoteUpdate (-1) u),
          VoteResult.ok (some (p.votes + (-1)))) := by
      simp [voteHandler, hvalid, hfind, hnotmem, hupd, applyVoteUpdate]
    have hmem2 : u ∈ (applyVoteUpdate (-1) u p).votedBy := by
      simp [applyVoteUpdate]
    refine ⟨by rw [hrun]; simp, ?_, hcount, ?_⟩
    · rw [hrun]
      simpa [applyVoteUpdate] using hupd
    · rw [hrun]
      simp [voteHandler, hvalid, hupd, hmem2]

/-- **C1** witness: the amended theorem applied at the concrete store, with
an up-vote, so every hypothesis is discharged by evaluation. -/
theorem C1_witness :
    (voteHandler voteCexStore voteCexId "up" "v@example.com").2 =
      VoteResult.ok (some ((0 : Int) + 1)) ∧
    findOneById (voteHandler voteCexStore voteCexId "up" "v@example.com").1
        voteCexId =
      some { pid := voteCexId, ownerEmail := "owner@example.com",
             votes := (0 : Int) + 1, votedBy := [] ++ ["v@example.com"],
             status := none, reportCount := 0, reportedBy := [] } ∧
    (([] : List String) ++ ["v@example.com"]).count "v@example.com" = 1 ∧
    voteHandler (voteHandler voteCexStore voteCexId "up" "v@example.com").1
        voteCexId "up" "v@example.com" =
      ((voteHandler voteCexStore voteCexId "up" "v@example.com").1,
        VoteResult.alreadyVoted) :=
  C1_vote_twice_same_identity voteCexStore voteCexId "up" "v@example.com"
    { pid := voteCexId, ownerEmail := "owner@example.com", votes := 0,
      votedBy := [], status := none, reportCount := 0, reportedBy := [] }
    (by decide) (Or.inl rfl) (by decide) (by decide)

/-- **C1** counterexample to the claim as stated: submitting a `"down"` vote
twice with the same identity leaves the product at -1 votes — the counter
does not increase by one — while the second attempt still fails with the
Conflict response. -/
theorem C1_counterexample :
    (findOneById
        (voteHandler voteCexStore voteCexId "down" "v@example.com").1
        voteCexId).map Product.votes = some (-1) ∧
    (voteHandler (voteHandler voteCexStore voteCexId "down" "v@example.com").1
        voteCexId "down" "v@example.com").2 = VoteResult.alreadyVoted ∧
    ¬ ((-1 : Int) = 0 + 1) := by
  decide

/-! ## C2: reporting twice with the same identity (spec-modelled) -/

/-- **C2**.  First report on a product by a fresh reporter identity succeeds:
the report counter is incremented, the identity is appended to the
reported-by set, and exactly one audit record with the idempotency key
(product id, reporter identity) is inserted into the reports log.  A second
report with the same key fails with Conflict and leaves both the product
store and the log unchanged, so exactly one report record remains. -/
theorem C2_report_twice_same_identity (prods : List Product)
    (log : List Report) (id who why1 why2 : String) (t1 t2 : Nat)
    (p : Product)
    (hfind : findOneById prods id = some p)
    (hnot : p.reportedBy.contains who = false)
    (hlog : reportKeyCount log id who = 0) :
    (reportOp prods log id who why1 t1).2.2 = ReportResult.ok ∧
    findOneById (reportOp prods log id who why1 t1).1 id =
      some { p with reportCount := p.reportCount + 1,
                    reportedBy := p.reportedBy ++ [who] } ∧
    reportKeyCount (reportOp prods log id who why1 t1).2.1 id who = 1 ∧
    reportOp (reportOp prods log id who why1 t1).1
        (reportOp prods log id who why1 t1).2.1 id who why2 t2 =
      ((reportOp prods log id who why1 t1).1,
        (reportOp prods log id who why1 t1).2.1, ReportResult.conflict) := by
  have hnotmem : who ∉ p.reportedBy := by simpa using hnot
  have hupd := findOneById_updateOneById prods id (applyReportUpdate who) p
    hfind rfl
  have hrun : reportOp prods log id who why1 t1 =
      (updateOneById prods id (applyReportUpdate who),
        log ++ [⟨id, who, why1, t1⟩], ReportResult.ok) := by
    simp [reportOp, hfind, hnotmem]
  have hmem2 : who ∈ (applyReportUpdate who p).reportedBy := by
    simp [applyReportUpdate]
  have hkey : reportKeyCount (log ++ [⟨id, who, why1, t1⟩]) id who = 1 := by
    unfold reportKeyCount at hlog ⊢
    rw [List.countP_append, hlog]
    simp [List.countP, List.countP.go]
  refine ⟨by rw [hrun], ?_, by rw [hrun]; exact hkey, ?_⟩
  · rw [hrun]
    simpa [applyReportUpdate] using hupd
  · rw [hrun]
    simp [reportOp, hupd, hmem2]

/-- **C2** witness: the theorem applied at a concrete one-product store,
an empty reports log and a fresh reporter identity. -/
theorem C2_witness :
    (reportOp reportDemoStore [] reportDemoId "r@example.com" "spam" 5).2.2 =
      ReportResult.ok ∧
    findOneById
        (reportOp reportDemoStore [] reportDemoId "r@example.com" "spam" 5).1
        reportDemoId =
      some { pid := reportDemoId, ownerEmail := "owner@example.com",
             votes := 0, votedBy := [], status := none,
             reportCount := 0 + 1, reportedBy := [] ++ ["r@example.com"] } ∧
    reportKeyCount
        (reportOp reportDemoStore [] reportDemoId "r@example.com" "spam" 5).2.1
        reportDemoId "r@example.com" = 1 ∧
    reportOp (reportOp reportDemoStore [] reportDemoId "r@example.com" "spam" 5).1
        (reportOp reportDemoStore [] reportDemoId "r@example.com" "spam" 5).2.1
        reportDemoId "r@example.com" "again" 6 =
      ((reportOp reportDemoStore [] reportDemoId "r@example.com" "spam" 5).1,
        (reportOp reportDemoStore [] reportDemoId "r@example.com" "spam" 5).2.1,
        ReportResult.conflict) :=
  C2_report_twice_same_identity reportDemoStore [] reportDemoId
    "r@example.com" "spam" "again" 5 6
    (newProductDoc reportDemoId "owner@example.com")
    (by decide) (by decide) (by decide)

/-! ## C3: the membership gate on product submission -/

theorem findMembership_eq_some (mems : List Membership) (e : String)
    (m : Membership) (h : findMembership mems e = some m) :
    m ∈ mems ∧ m.userEmail = e := by
  induction mems with
  | nil => simp [findMembership] at h
  | cons a rest ih =>
    by_cases ha : (a.userEmail == e) = true
    · simp only [findMembership, if_pos ha] at h
      injection h with h
      subst h
      exact ⟨List.mem_cons_self a rest, by simpa using ha⟩
    · simp only [findMembership, if_neg ha] at h
      obtain ⟨h1, h2⟩ := ih h
      exact ⟨List.mem_cons_of_mem a h1, h2⟩

/-- **C3** (amended).  (a) If no stored membership for the submitting
identity is active and the identity already owns at least one product, the
submission is rejected with 403 Forbidden and nothing is inserted.  (b) If
the membership lookup — `findOne({userEmail})`, i.e. the *first stored*
membership document for the identity — is active, the submission passes the
gate regardless of how many products the identity owns.  (c) The gate never
mutates the membership collection.  (The original claim's part (b) said "has
an active membership"; when an inactive document for the identity precedes
an active one, the code inspects only the first and rejects.) -/
theorem C3_membership_gate (mems : List Membership) (prods : List Product)
    (pid e : String) :
    ((∀ m ∈ mems, m.userEmail = e → m.isActive = false) →
      1 ≤ (prods.filter (fun p => p.ownerEmail == e)).length →
      postProduct mems prods pid e = (mems, prods, SubmitResult.forbidden)) ∧
    (∀ m, findMembership mems e = some m → m.isActive = true →
      postProduct mems prods pid e =
        (mems, prods ++ [newProductDoc pid e], SubmitResult.created)) ∧
    (postProduct mems prods pid e).1 = mems := by
  refine ⟨?_, ?_, ?_⟩
  · intro hin hown
    have hgate : (match findMembership mems e with
        | none => true
        | some m => !m.isActive) = true := by
      cases hm : findMembership mems e with
      | none => rfl
      | some m =>
        obtain ⟨h1, h2⟩ := findMembership_eq_some mems e m hm
        simp [hin m h1 h2]
    simp [postProduct, hgate, hown]
  · intro m hm hact
    simp [postProduct, hm, hact]
  · simp only [postProduct]
    split <;> rfl

/-- **C3** counterexample to the claim as stated: the identity
`u@example.com` *does* have an active membership (the second stored
document), yet its submission is rejected, because the gate inspects only
the first stored membership document, which is inactive. -/
theorem C3_counterexample :
    (postProduct
        ([{ userEmail := "u@example.com", isActive := false },
          { userEmail := "u@example.com", isActive := true }] :
          List Membership)
        [newProductDoc "aaaaaaaaaaaaaaaaaaaaaaaa" "u@example.com"]
        "bbbbbbbbbbbbbbbbbbbbbbbb" "u@example.com").2.2 =
      SubmitResult.forbidden ∧
    (∃ m ∈ ([{ userEmail := "u@example.com", isActive := false },
             { userEmail := "u@example.com", isActive := true }] :
             List Membership),
       m.userEmail = "u@example.com" ∧ m.isActive = true) := by
  decide

/-- **C3** witness: both gate outcomes of the amended theorem at concrete
stores — a member-less owner of one product is rejected, an identity whose
first stored membership is active is admitted. -/
theorem C3_witness :
    postProduct ([{ userEmail := "w@example.com", isActive := false }] :
        List Membership)
      [newProductDoc "cccccccccccccccccccccccc" "w@example.com"]
      "dddddddddddddddddddddddd" "w@example.com" =
      (([{ userEmail := "w@example.com", isActive := false }] :
          List Membership),
        [newProductDoc "cccccccccccccccccccccccc" "w@example.com"],
        SubmitResult.forbidden) ∧
    postProduct ([{ userEmail := "x@example.com", isActive := true }] :
        List Membership)
      [newProductDoc "cccccccccccccccccccccccc" "x@example.com"]
      "dddddddddddddddddddddddd" "x@example.com" =
      (([{ userEmail := "x@example.com", isActive := true }] :
          List Membership),
        [newProductDoc "cccccccccccccccccccccccc" "x@example.com"] ++
          [newProductDoc "dddddddddddddddddddddddd" "x@example.com"],
        SubmitResult.created) :=
  ⟨(C3_membership_gate
      ([{ userEmail := "w@example.com", isActive := false }] :
        List Membership)
      [newProductDoc "cccccccccccccccccccccccc" "w@example.com"]
      "dddddddddddddddddddddddd" "w@example.com").1 (by decide) (by decide),
   (C3_membership_gate
      ([{ userEmail := "x@example.com", isActive := true }] :
        List Membership)
      [newProductDoc "cccccccccccccccccccccccc" "x@example.com"]
      "dddddddddddddddddddddddd" "x@example.com").2.1
     { userEmail := "x@example.com", isActive := true } (by decide) rfl⟩

/-! ## C4: the vote-count invariant over operation sequences -/

theorem mem_deleteOneById (store : List Product) (id : String) (q : Product)
    (hq : q ∈ deleteOneById store id) : q ∈ store := by
  induction store with
  | nil => simp [deleteOneById] at hq
  | cons a rest ih =>
    simp only [deleteOneById] at hq
    by_cases h : (a.pid == id) = true
    · rw [if_pos h] at hq
      exact List.mem_cons_of_mem a hq
    · rw [if_neg h] at hq
      rcases List.mem_cons.mp hq with h1 | h1
      · exact h1 ▸ List.mem_cons_self a rest
      · exact List.mem_cons_of_mem a (ih h1)

theorem mem_voteHandler_fst (store : List Product) (id t u : String)
    (hdown : (t == "down") = false) (q : Product)
    (hq : q ∈ (voteHandler store id t u).1) :
    q ∈ store ∨ ∃ q₀ ∈ store, q = applyVoteUpdate 1 u q₀ := by
  unfold voteHandler at hq
  split at hq
  · exact Or.inl hq
  · split at hq
    · exact Or.inl hq
    · split at hq
      · exact Or.inl hq
      · split at hq
        · exact mem_updateOneById store id (applyVoteUpdate 1 u) q hq
        · split at hq
          · simp_all
          · exact Or.inl hq

theorem votes_nonneg_applyOp (store : List Product) (op : Op)
    (hop : isDownVote op = false)
    (h : ∀ p ∈ store, 0 ≤ p.votes) :
    ∀ q ∈ applyOp store op, 0 ≤ q.votes := by
  intro q hq
  cases op with
  | submit pid owner =>
    simp only [applyOp] at hq
    rcases List.mem_append.mp hq with h1 | h1
    · exact h q h1
    · rw [List.mem_singleton] at h1
      subst h1
      simp [newProductDoc]
  | vote pid t u =>
    have hdown : (t == "down") = false := by simpa [isDownVote] using hop
    simp only [applyOp] at hq
    rcases mem_voteHandler_fst store pid t u hdown q hq with h1 | ⟨q₀, hq₀, rfl⟩
    · exact h q h1
    · have h0 := h q₀ hq₀
      simp only [applyVoteUpdate]
      omega
  | report pid who why now =>
    simp only [applyOp] at hq
    unfold reportOp at hq
    split at hq
    · exact h q hq
    · split at hq
      · exact h q hq
      · rcases mem_updateOneById store pid (applyReportUpdate who) q hq with
          h1 | ⟨q₀, hq₀, rfl⟩
        · exact h q h1
        · simpa [applyReportUpdate] using h q₀ hq₀
  | approve pid status =>
    simp only [applyOp] at hq
    rcases mem_updateOneById store pid
        (fun p => { p with status := some status }) q hq with
      h1 | ⟨q₀, hq₀, rfl⟩
    · exact h q h1
    · simpa using h q₀ hq₀
  | del pid =>
    simp only [applyOp] at hq
    unfold deleteProduct at hq
    split at hq
    · exact h q hq
    · split at hq
      · exact h q hq
      · exact h q (mem_deleteOneById store pid q hq)

/-- **C4** (amended).  Starting from any store of products with non-negative
vote counts, any sequence of submissions, votes, reports, approvals and
deletions that contains no `"down"`-typed vote leaves every product's vote
count a non-negative integer.  (The original claim said every sequence: a
down-vote refutes it, see the counterexample.) -/
theorem C4_votes_nonneg (init : List Product) (ops : List Op) :
    (∀ p ∈ init, 0 ≤ p.votes) →
    (∀ op ∈ ops, isDownVote op = false) →
    ∀ p ∈ runOps init ops, 0 ≤ p.votes := by
  induction ops generalizing init with
  | nil =>
    intro hinit _
    simpa [runOps] using hinit
  | cons op rest ih =>
    intro hinit hops
    simp only [runOps]
    exact ih (applyOp init op)
      (votes_nonneg_applyOp init op (hops op (List.mem_cons_self op rest)) hinit)
      (fun o ho => hops o (List.mem_cons_of_mem op ho))

/-- **C4** counterexample to the claim as stated: submitting a product and
then down-voting it drives its vote count to -1 < 0. -/
theorem C4_counterexample :
    ∃ p ∈ runOps ([] : List Product)
        [Op.submit c4Id "owner@example.com",
         Op.vote c4Id "down" "v@example.com"], p.votes < 0 := by
  decide

/-- **C4** witness: the amended invariant applied to a concrete down-vote-free
run (a submission followed by an up-vote), instantiated at the one product
that run produces. -/
theorem C4_witness :
    0 ≤ (applyVoteUpdate 1 "v@example.com"
          (newProductDoc c4Id "owner@example.com")).votes :=
  C4_votes_nonneg []
    [Op.submit c4Id "owner@example.com", Op.vote c4Id "up" "v@example.com"]
    (by decide) (by decide)
    (applyVoteUpdate 1 "v@example.com" (newProductDoc c4Id "owner@example.com"))
    (by decide)

/-! ## C5: the rising-products query -/

/-- **C5**.  `GET /products/rising` returns exactly the stored products with
vote count ≥ 10: membership in the response is equivalent to membership in
the store with votes ≥ 10, and a duplicate-free store yields a
duplicate-free response. -/
theorem C5_rising_exact (store : List Product) :
    (∀ p, p ∈ risingProducts store ↔ p ∈ store ∧ (10 : Int) ≤ p.votes) ∧
    (store.Nodup → (risingProducts store).Nodup) := by
  constructor
  · intro p
    simp [risingProducts, List.mem_filter]
  · intro h
    exact h.filter _

/-- **C5** witness: the theorem at a concrete two-product store (votes 12
and 3), with the no-duplicates hypothesis discharged by evaluation. -/
theorem C5_witness :
    (risingHigh ∈ risingProducts risingDemoStore ↔
      risingHigh ∈ risingDemoStore ∧ (10 : Int) ≤ risingHigh.votes) ∧
    (risingProducts risingDemoStore).Nodup :=
  ⟨(C5_rising_exact risingDemoStore).1 risingHigh,
   (C5_rising_exact risingDemoStore).2 (by decide)⟩

/-! ## C6: coupon round-trip -/

theorem getCoupon_append (store l : List Coupon) (code : String)
    (h : ∀ c ∈ store, c.code ≠ code) :
    getCoupon (store ++ l) code = getCoupon l code := by
  induction store with
  | nil => rfl
  | cons a rest ih =>
    have ha : (a.code == code) = false := by
      simpa using h a (List.mem_cons_self a rest)
    rw [List.cons_append]
    simp only [getCoupon, ha, Bool.false_eq_true, if_false]
    exact ih (fun c hc => h c (List.mem_cons_of_mem a hc))

/-- **C6**.  In any store not already containing the code, creating the
coupon {code: "SAVE10", expiryDate: "2025-12-31", description: "10% off",
discount: 10} succeeds (201) and inserts exactly that document, and fetching
`/coupons/SAVE10` afterwards returns the document with those same four field
values. -/
theorem C6_coupon_roundtrip (store : List Coupon)
    (hfresh : ∀ c ∈ store, c.code ≠ "SAVE10") :
    postCoupon store "SAVE10" "2025-12-31" "10% off" 10 =
      (store ++ [⟨"SAVE10", "2025-12-31", "10% off", 10⟩],
        CouponPostResult.created) ∧
    getCoupon (postCoupon store "SAVE10" "2025-12-31" "10% off" 10).1
        "SAVE10" =
      some ⟨"SAVE10", "2025-12-31", "10% off", 10⟩ := by
  have hpost : postCoupon store "SAVE10" "2025-12-31" "10% off" 10 =
      (store ++ [⟨"SAVE10", "2025-12-31", "10% off", 10⟩],
        CouponPostResult.created) := rfl
  refine ⟨hpost, ?_⟩
  rw [hpost]
  rw [getCoupon_append store _ "SAVE10" hfresh]
  rfl

/-- **C6** witness: the round-trip at the empty store. -/
theorem C6_witness :
    postCoupon ([] : List Coupon) "SAVE10" "2025-12-31" "10% off" 10 =
      (([] : List Coupon) ++ [⟨"SAVE10", "2025-12-31", "10% off", 10⟩],
        CouponPostResult.created) ∧
    getCoupon
        (postCoupon ([] : List Coupon) "SAVE10" "2025-12-31" "10% off" 10).1
        "SAVE10" =
      some ⟨"SAVE10", "2025-12-31", "10% off", 10⟩ :=
  C6_coupon_roundtrip [] (by decide)

/-! ## C7: deleting a non-existent product -/

theorem findOneById_eq_none (store : List Product) (id : String)
    (h : ∀ p ∈ store, p.pid ≠ id) : findOneById store id = none := by
  induction store with
  | nil => rfl
  | cons a rest ih =>
    have ha : (a.pid == id) = false := by
      simpa using h a (List.mem_cons_self a rest)
    simp only [findOneById, ha, Bool.false_eq_true, if_false]
    exact ih (fun p hp => h p (List.mem_cons_of_mem a hp))

/-- **C7**.  For every well-formed product id matching no stored product,
`DELETE /products/:id` answers 404 NotFound, leaves the collection
unchanged, and does not answer with the success response. -/
theorem C7_delete_missing (store : List Product) (id : String)
    (hvalid : isValidObjectId id = true)
    (hmiss : ∀ p ∈ store, p.pid ≠ id) :
    deleteProduct store id = (store, DeleteResult.notFound) ∧
    (deleteProduct store id).2 ≠ DeleteResult.deleted := by
  have hnone := findOneById_eq_none store id hmiss
  have hrun : deleteProduct store id = (store, DeleteResult.notFound) := by
    simp [deleteProduct, hvalid, hnone]
  exact ⟨hrun, by rw [hrun]; exact fun hcon => DeleteResult.noConfusion hcon⟩

/-- **C7** witness: deleting a valid-format id absent from a concrete
one-product store. -/
theorem C7_witness :
    deleteProduct [newProductDoc "111111111111111111111111" "o@example.com"]
        "222222222222222222222222" =
      ([newProductDoc "111111111111111111111111" "o@example.com"],
        DeleteResult.notFound) ∧
    (deleteProduct [newProductDoc "111111111111111111111111" "o@example.com"]
        "222222222222222222222222").2 ≠ DeleteResult.deleted :=
  C7_delete_missing [newProductDoc "111111111111111111111111" "o@example.com"]
    "222222222222222222222222" (by decide) (by decide)

/-! ## C8 and C9: signup -/

theorem findUserByEmail_exists (users : List User) (email : String)
    (h : ∃ u ∈ users, u.email = email) :
    ∃ v, findUserByEmail users email = some v := by
  induction users with
  | nil => simp at h
  | cons a rest ih =>
    by_cases ha : (a.email == email) = true
    · exact ⟨a, by simp [findUserByEmail, ha]⟩
    · have hrest : ∃ u ∈ rest, u.email = email := by
        rcases h with ⟨u, hu, he⟩
        rcases List.mem_cons.mp hu with h1 | h1
        · subst h1
          simp [he] at ha
        · exact ⟨u, h1, he⟩
      rcases ih hrest with ⟨v, hv⟩
      exact ⟨v, by simp [findUserByEmail, ha, hv]⟩

/-- **C8**.  A signup whose email already belongs to a stored user fails
with status 400 — one of the Conflict statuses {400, 409} — and the user
collection is returned unchanged: nothing is inserted and no stored document
is modified. -/
theorem C8_signup_duplicate (users : List User) (email password : String)
    (hdup : ∃ u ∈ users, u.email = email) :
    (signup users email password).1 = users ∧
    (signup users email password).2 = SignupResult.conflict 400 ∧
    (400 = 400 ∨ 400 = 409) := by
  rcases findUserByEmail_exists users email hdup with ⟨v, hv⟩
  refine ⟨?_, ?_, Or.inl rfl⟩ <;> simp [signup, hv]

/-- **C8** witness: a duplicate signup against a concrete one-user store. -/
theorem C8_witness :
    (signup [⟨"dup@example.com", "h"⟩] "dup@example.com" "pw").1 =
      [⟨"dup@example.com", "h"⟩] ∧
    (signup [⟨"dup@example.com", "h"⟩] "dup@example.com" "pw").2 =
      SignupResult.conflict 400 ∧
    (400 = 400 ∨ 400 = 409) :=
  C8_signup_duplicate [⟨"dup@example.com", "h"⟩] "dup@example.com" "pw"
    (by decide)

/-- **C9**.  For every store and request, neither `POST /signup` nor
`POST /register` ever changes the user collection or reaches its success
(201, token) branch: the duplicate path returns early, and the fresh path
throws on the unbound name `bcrypt` before `insertOne`. -/
theorem C9_signup_success_unreachable (users : List User)
    (email password : String) :
    (signup users email password).1 = users ∧
    (register users email password).1 = users ∧
    (∀ s t, (signup users email password).2 ≠ SignupResult.created s t) ∧
    (∀ s t, (register users email password).2 ≠ SignupResult.created s t) := by
  cases h : findUserByEmail users email <;> simp [signup, register, h]

/-- **C9** witness: the theorem instantiated at the empty store, where the
fresh-signup path is taken and still no user is created. -/
theorem C9_witness :
    (signup ([] : List User) "new@example.com" "pw").1 = [] ∧
    (signup ([] : List User) "new@example.com" "pw").2 ≠
      SignupResult.created 201 "token" :=
  ⟨(C9_signup_success_unreachable [] "new@example.com" "pw").1,
   (C9_signup_success_unreachable [] "new@example.com" "pw").2.2.1 201 "token"⟩

/-! ## C10: GET /myproducts always returns the empty list -/

theorem docLookup_productData_userEmail (r : ProductReq) :
    docLookup (productData r) "userEmail" = none := rfl

/-- **C10**.  Products are stored with the owner identity under `ownerEmail`,
while `GET /myproducts` filters on `userEmail`, a field no product document
ever has: on any store consisting of documents written by `POST /products`,
the route returns the empty list for every email. -/
theorem C10_myproducts_empty (store : List BDoc)
    (hstore : ∀ d ∈ store, ∃ r, d = productData r) (email : String) :
    myproducts store email = [] := by
  simp only [myproducts]
  rw [List.filter_eq_nil_iff]
  intro d hd
  obtain ⟨r, rfl⟩ := hstore d hd
  simp [matchesFieldEq, docLookup_productData_userEmail]

/-- **C10** witness: a concrete store holding one document written by
`POST /products`, queried with its own owner's email. -/
theorem C10_witness : myproducts myprodDemoStore "o@example.com" = [] :=
  C10_myproducts_empty myprodDemoStore
    (by
      intro d hd
      simp only [myprodDemoStore, List.mem_singleton] at hd
      exact ⟨myprodDemoReq, hd⟩)
    "o@example.com"

end ProductHunt
